import Mathlib

/-
  Verification development for the MSPThreatIntel dashboard generator
  (src/scripts/generate.py).  The script fetches four external feeds and
  renders an HTML dashboard; the logic embedded here is the pure
  fetch-transform part of each pipeline, with the raw remote payloads
  passed in explicitly:

  * fetch_cisa_data   : vendor classification of vulnerability records,
                        KQL derivation for the Microsoft category, sort by
                        dateAdded descending, cap at 100;
  * fetch_eol_data    : per-product lifecycle evaluation (skip records with
                        missing/false/unparseable end-of-support, status
                        ok/warning/expired, retention window), merged and
                        sorted ascending by end-of-support date;
  * fetch_security_news : per-source trigger filtering of news items with
                        per-source and total caps, failed sources skipped.

  Python strings are modelled as Lean String; str.lower is modelled as the
  ASCII lowering the script relies on; the `in` substring test, Python
  string comparison, and date parsing (datetime.strptime with format
  %Y-%m-%d followed by date subtraction in days) are modelled by the
  executable functions below.  Dates are day numbers (days since
  1970-01-01, the standard civil-from-days correspondence).
-/

/-- ASCII lowering of one character, as Python str.lower acts on ASCII. -/
def lowerChar (c : Char) : Char :=
  if 65 ≤ c.toNat ∧ c.toNat ≤ 90 then Char.ofNat (c.toNat + 32) else c

/-- Model of Python str.lower on the vendor and news text fields. -/
def lowerStr (s : String) : String :=
  String.mk (s.data.map lowerChar)

/-- Model of matching a needle at the head of a list of characters. -/
def subAt : List Char → List Char → Bool
  | [], _ => true
  | _ :: _, [] => false
  | c :: cs, d :: ds => c == d && subAt cs ds

/-- Model of list containment of a contiguous needle anywhere in the hay. -/
def hasSub : List Char → List Char → Bool
  | [], needle => needle.isEmpty
  | h :: t, needle => subAt needle (h :: t) || hasSub t needle

/-- Model of the Python substring test `needle in hay`. -/
def strContains (hay needle : String) : Bool :=
  hasSub hay.data needle.data

/-- Lexicographic comparison of character lists by code point, as Python
compares strings. -/
def leChars : List Char → List Char → Bool
  | [], _ => true
  | _ :: _, [] => false
  | a :: as, b :: bs =>
    if a.toNat < b.toNat then true
    else if b.toNat < a.toNat then false
    else leChars as bs

/-- Model of the Python string order used by sorted(key=dateAdded). -/
def strLe (a b : String) : Bool :=
  leChars a.data b.data

/-- Split a character list on a separator character (Python str.split). -/
def splitOnChar (c : Char) : List Char → List (List Char)
  | [] => [[]]
  | x :: xs =>
    let r := splitOnChar c xs
    if x == c then [] :: r
    else
      match r with
      | [] => [[x]]
      | h :: t => (x :: h) :: t

/-- Read a nonempty all-digit character list as a natural number. -/
def digitsToNat : List Char → Option Nat
  | [] => none
  | cs =>
    cs.foldl
      (fun acc c =>
        acc.bind (fun n =>
          if 48 ≤ c.toNat ∧ c.toNat ≤ 57 then some (n * 10 + (c.toNat - 48))
          else none))
      (some 0)

/-- Gregorian leap-year test. -/
def isLeap (y : Nat) : Bool :=
  y % 4 == 0 && (y % 100 != 0 || y % 400 == 0)

/-- Number of days in a month of the Gregorian calendar. -/
def daysInMonth (y m : Nat) : Nat :=
  if m == 2 then (if isLeap y then 29 else 28)
  else if m == 4 || m == 6 || m == 9 || m == 11 then 30
  else 31

/-- Day number (days since 1970-01-01) of a Gregorian civil date, by the
standard civil-to-days computation. -/
def civilToDays (y m d : Nat) : Int :=
  let yAdj : Nat := if m ≤ 2 then y - 1 else y
  let era : Nat := yAdj / 400
  let yoe : Nat := yAdj - era * 400
  let mp : Nat := if m > 2 then m - 3 else m + 9
  let doy : Nat := (153 * mp + 2) / 5 + d - 1
  let doe : Nat := yoe * 365 + yoe / 4 - yoe / 100 + doy
  (era * 146097 + doe : Int) - 719468

/-- Model of datetime.strptime(eol, "%Y-%m-%d").date() followed by the
conversion to a day number: parse year-month-day, validate the ranges,
return none where strptime raises ValueError. -/
def parseDate (s : String) : Option Int :=
  match splitOnChar '-' s.data with
  | [ys, ms, ds] =>
    match digitsToNat ys, digitsToNat ms, digitsToNat ds with
    | some y, some m, some d =>
      if 1 ≤ m ∧ m ≤ 12 ∧ 1 ≤ d ∧ d ≤ daysInMonth y m then
        some (civilToDays y m d)
      else none
    | _, _, _ => none
  | _ => none

/-- The VENDORS table of generate.py: category label paired with its
lowercase search keywords, in declared insertion order. -/
def VENDORS : List (String × List String) :=
  [("Microsoft", ["microsoft"]),
   ("Cisco", ["cisco"]),
   ("Citrix", ["citrix"]),
   ("Palo Alto", ["palo alto"]),
   ("Check Point", ["checkpoint", "check point"]),
   ("Fortinet", ["fortinet", "fortigate"]),
   ("Aruba", ["aruba", "hpe networking"])]

/-- The loop of fetch_cisa_data over the category table: first category
with a keyword occurring in the (already lowercased) vendor field wins;
the default assignment is the catch-all "Other". -/
def classifyGo (vf : String) : List (String × List String) → String
  | [] => "Other"
  | (cat, ks) :: rest =>
    if ks.any (fun k => strContains vf k) then cat else classifyGo vf rest

/-- Vendor classification of fetch_cisa_data: lowercase the vendorProject
field, then scan the category table in order. -/
def classifyVendor (table : List (String × List String)) (vendorField : String) : String :=
  classifyGo (lowerStr vendorField) table

/-- Raw vulnerability entry of the CISA known-exploited-vulnerabilities
feed, as read by fetch_cisa_data. -/
structure RawVuln where
  cveID : String
  vendorProject : String
  product : String
  vulnerabilityName : String
  shortDescription : String
  requiredAction : String
  dateAdded : String
deriving DecidableEq

/-- Classified vulnerability record: the raw fields plus the derived
ui_category, link and optional kql added by fetch_cisa_data. -/
structure Vuln where
  cveID : String
  vendorProject : String
  product : String
  vulnerabilityName : String
  shortDescription : String
  requiredAction : String
  dateAdded : String
  ui_category : String
  link : String
  kql : Option String
deriving DecidableEq

/-- Per-record body of the fetch_cisa_data loop: classify the vendor
field against VENDORS, derive the NVD link, and derive the KQL query
template for the Microsoft category only. -/
def processVuln (v : RawVuln) : Vuln :=
  let cat := classifyVendor VENDORS v.vendorProject
  { cveID := v.cveID
    vendorProject := v.vendorProject
    product := v.product
    vulnerabilityName := v.vulnerabilityName
    shortDescription := v.shortDescription
    requiredAction := v.requiredAction
    dateAdded := v.dateAdded
    ui_category := cat
    link := "https://nvd.nist.gov/vuln/detail/" ++ v.cveID
    kql :=
      if cat = "Microsoft" then
        some ("DeviceTvmSoftwareVulnerabilities | where CveId == \x27"
              ++ v.cveID ++ "\x27 | summarize count() by DeviceName")
      else none }

/-- The fetch_cisa_data pipeline on an already-fetched vulnerabilities
list: classify every record, sort by dateAdded descending (Python sorted
with reverse=True is a stable sort, modelled by the stable insertionSort
with the reversed key order), and keep the first 100. -/
def fetch_cisa_data (raw : List RawVuln) : List Vuln :=
  (List.insertionSort (fun a b => strLe b.dateAdded a.dateAdded = true)
    (raw.map processVuln)).take 100

/-- Raw lifecycle entry of an endoflife.date product feed: version cycle
plus the eol field, which is absent, a boolean, or a date string. -/
structure RawVersion where
  cycle : String
  eol : Option (Bool ⊕ String)
deriving DecidableEq

/-- Lifecycle record produced by fetch_eol_data. -/
structure EolItem where
  product : String
  eol : String
  status : String
  sort_date : Int
deriving DecidableEq

/-- Status computation of fetch_eol_data: start at "ok", switch to
"expired" when days_left is negative, else to "warning" under 365. -/
def statusOf (days_left : Int) : String :=
  if days_left < 0 then "expired"
  else if days_left < 365 then "warning"
  else "ok"

/-- Per-record body of the fetch_eol_data loop: skip when the eol field
is absent or falsy (None, False, empty string) or the boolean sentinel,
skip when the date does not parse (the bare except around strptime; a
boolean True also lands there since strptime rejects it), compute
days_left, and keep the record only when days_left > -730. -/
def eolProcessVersion (today : Int) (friendly_name : String) (v : RawVersion) :
    Option EolItem :=
  match v.eol with
  | none => none
  | some (Sum.inl _) => none
  | some (Sum.inr s) =>
    if s.isEmpty then none
    else
      match parseDate s with
      | none => none
      | some d =>
        let days_left := d - today
        if days_left > -730 then
          some { product := friendly_name ++ " " ++ v.cycle
                 eol := s
                 status := statusOf days_left
                 sort_date := d }
        else none

/-- One product line of fetch_eol_data: a failed or non-200 fetch (the
none payload) contributes nothing; otherwise only the first 5 versions of
the feed are examined. -/
def eolProcessLine (today : Int) (line : String × Option (List RawVersion)) :
    List EolItem :=
  match line.2 with
  | none => []
  | some versions => (versions.take 5).filterMap (eolProcessVersion today line.1)

/-- The fetch_eol_data pipeline on already-fetched product feeds: process
every product line and sort the merged records ascending by sort_date. -/
def fetch_eol_data (lines : List (String × Option (List RawVersion))) (today : Int) :
    List EolItem :=
  List.insertionSort (fun a b => a.sort_date ≤ b.sort_date)
    (lines.flatMap (eolProcessLine today))

/-- Raw RSS news item as read by fetch_security_news: description and
pubDate elements may be missing. -/
structure RawNewsItem where
  title : String
  desc : Option String
  link : String
  pubDate : Option String
deriving DecidableEq

/-- News item retained by fetch_security_news. -/
structure NewsItem where
  source : String
  title : String
  link : String
  date : String
deriving DecidableEq

/-- Trigger test of fetch_security_news: concatenate title and
description (an absent description reads as the empty string), lowercase,
and look for any trigger substring. -/
def matchesNews (triggers : List String) (i : RawNewsItem) : Bool :=
  let combined_text := lowerStr (i.title ++ " " ++ i.desc.getD "")
  triggers.any (fun trigger => strContains combined_text trigger)

/-- Record constructor of fetch_security_news: source name, title, link
and the pubDate text truncated to its first 16 characters (empty when the
pubDate element is missing). -/
def mkNewsItem (sourceName : String) (i : RawNewsItem) : NewsItem :=
  { source := sourceName
    title := i.title
    link := i.link
    date :=
      match i.pubDate with
      | some p => String.mk (p.data.take 16)
      | none => "" }

/-- The NEWS_TRIGGERS constant of generate.py. -/
def NEWS_TRIGGERS : List String :=
  ["cve-", "zero-day", "exploit", "rce", "critical", "patch",
   "vulnerability", "backdoor"]

/-- Contribution of one news source: a fetch or parse failure (the error
payload, caught by the per-source except) contributes nothing; otherwise
the first 10 feed items are examined and those passing the trigger test
are kept. -/
def newsContrib (triggers : List String)
    (source : String × Except Unit (List RawNewsItem)) : List NewsItem :=
  match source.2 with
  | Except.error _ => []
  | Except.ok items =>
    ((items.take 10).filter (matchesNews triggers)).map (mkNewsItem source.1)

/-- The fetch_security_news pipeline on already-fetched feeds: sources
are processed in declaration order into one list, truncated to 15. -/
def fetch_security_news (sources : List (String × Except Unit (List RawNewsItem)))
    (triggers : List String) : List NewsItem :=
  (sources.flatMap (newsContrib triggers)).take 15

/-! ### Helper lemmas -/

theorem subAt_self_append (n r : List Char) : subAt n (n ++ r) = true := by
  induction n with
  | nil => rfl
  | cons c cs ih => simp [subAt, ih]

theorem hasSub_of_subAt (hay n : List Char) (h : subAt n hay = true) :
    hasSub hay n = true := by
  cases hay with
  | nil =>
    cases n with
    | nil => rfl
    | cons x t => simp [subAt] at h
  | cons x t => simp [hasSub, h]

theorem hasSub_append_right (l1 l2 n : List Char) (h : hasSub l2 n = true) :
    hasSub (l1 ++ l2) n = true := by
  induction l1 with
  | nil => simpa using h
  | cons x xs ih => simp [hasSub, ih]

theorem strContains_append_mid (a b c : String) :
    strContains (a ++ b ++ c) b = true := by
  unfold strContains
  have hd : (a ++ b ++ c).data = a.data ++ (b.data ++ c.data) := by
    simp [String.data_append]
  rw [hd]
  exact hasSub_append_right _ _ _ (hasSub_of_subAt _ _ (subAt_self_append _ _))

/-! ### C1 -/

/-- C1: classification lowercases the vendor field and scans the category
table in declared order; the result is the first category having a keyword
occurring as a substring of the lowercased vendor field, and when no
category matches the result is the catch-all "Other" (so a category is
always assigned, and of two matching categories the earlier one wins). -/
theorem classify_first_match_or_other (table : List (String × List String))
    (vendor : String) :
    (∃ pre cat ks post, table = pre ++ (cat, ks) :: post ∧
      ks.any (fun k => strContains (lowerStr vendor) k) = true ∧
      (∀ p ∈ pre, p.2.any (fun k => strContains (lowerStr vendor) k) = false) ∧
      classifyVendor table vendor = cat) ∨
    ((∀ p ∈ table, p.2.any (fun k => strContains (lowerStr vendor) k) = false) ∧
      classifyVendor table vendor = "Other") := by
  unfold classifyVendor
  induction table with
  | nil => exact Or.inr ⟨by simp, rfl⟩
  | cons hd tl ih =>
    obtain ⟨cat, ks⟩ := hd
    by_cases h : ks.any (fun k => strContains (lowerStr vendor) k) = true
    · exact Or.inl ⟨[], cat, ks, tl, rfl, h, by simp, by simp [classifyGo, h]⟩
    · have h0 : ks.any (fun k => strContains (lowerStr vendor) k) = false :=
        Bool.eq_false_iff.mpr h
      have hgo : classifyGo (lowerStr vendor) ((cat, ks) :: tl)
          = classifyGo (lowerStr vendor) tl := by
        simp [classifyGo, h0]
      rcases ih with ⟨pre, c, k2, post, htl, hm, hpre, hres⟩ | ⟨hall, hres⟩
      · refine Or.inl ⟨(cat, ks) :: pre, c, k2, post, by rw [htl]; rfl, hm, ?_, ?_⟩
        · intro p hp
          rcases List.mem_cons.mp hp with hp | hp
          · rw [hp]; exact h0
          · exact hpre p hp
        · rw [hgo]; exact hres
      · refine Or.inr ⟨?_, by rw [hgo]; exact hres⟩
        intro p hp
        rcases List.mem_cons.mp hp with hp | hp
        · rw [hp]; exact h0
        · exact hall p hp

theorem leChars_total (as bs : List Char) :
    leChars as bs = true ∨ leChars bs as = true := by
  induction as generalizing bs with
  | nil => exact Or.inl rfl
  | cons a as ih =>
    cases bs with
    | nil => exact Or.inr rfl
    | cons b bs =>
      by_cases h1 : a.toNat < b.toNat
      · exact Or.inl (by simp [leChars, h1])
      · by_cases h2 : b.toNat < a.toNat
        · exact Or.inr (by simp [leChars, h2])
        · rcases ih bs with h | h
          · exact Or.inl (by simp [leChars, h1, h2, h])
          · exact Or.inr (by simp [leChars, h1, h2, h])

theorem leChars_trans (as bs cs : List Char) (hab : leChars as bs = true)
    (hbc : leChars bs cs = true) : leChars as cs = true := by
  induction as generalizing bs cs with
  | nil => rfl
  | cons a as ih =>
    cases bs with
    | nil => simp [leChars] at hab
    | cons b bs =>
      cases cs with
      | nil => simp [leChars] at hbc
      | cons c cs =>
        simp only [leChars] at hab hbc ⊢
        split_ifs at hab hbc ⊢ <;>
          first
          | rfl
          | omega
          | exact ih bs cs hab hbc

/-! ### C10 -/

/-- C10: fetch_cisa_data returns at most 100 records, sorted in descending
order of dateAdded (newest first, under the Python string order on ISO
dates); classified records beyond the 100 newest are dropped by the take. -/
theorem cisa_capped_and_sorted_desc (raw : List RawVuln) :
    (fetch_cisa_data raw).length ≤ 100 ∧
    (fetch_cisa_data raw).Pairwise
      (fun a b => strLe b.dateAdded a.dateAdded = true) := by
  refine ⟨List.length_take_le 100 _, ?_⟩
  have hs : List.Sorted (fun a b : Vuln => strLe b.dateAdded a.dateAdded = true)
      (List.insertionSort (fun a b => strLe b.dateAdded a.dateAdded = true)
        (raw.map processVuln)) := by
    haveI : IsTotal Vuln (fun a b => strLe b.dateAdded a.dateAdded = true) :=
      ⟨fun a b => leChars_total _ _⟩
    haveI : IsTrans Vuln (fun a b => strLe b.dateAdded a.dateAdded = true) :=
      ⟨fun _ _ _ h1 h2 => leChars_trans _ _ _ h2 h1⟩
    exact List.sorted_insertionSort _ _
  exact List.Pairwise.sublist (List.take_sublist _ _) hs

/-! ### C9 -/

/-- C9: a record returned by fetch_cisa_data carries a non-null KQL query
template exactly when its assigned category is "Microsoft", and a present
template contains the CVE identifier of the record as a substring; every other
category (including "Other") gets a null template. -/
theorem kql_iff_microsoft (raw : List RawVuln) (v : Vuln)
    (hv : v ∈ fetch_cisa_data raw) :
    (v.kql.isSome = true ↔ v.ui_category = "Microsoft") ∧
    (∀ s, v.kql = some s → strContains s v.cveID = true) := by
  have hv1 : v ∈ raw.map processVuln := by
    have h2 := (List.take_sublist 100 _).subset hv
    exact (List.perm_insertionSort _ _).mem_iff.mp h2
  obtain ⟨r, _hr, rfl⟩ := List.mem_map.mp hv1
  have hkql : (processVuln r).kql =
      if classifyVendor VENDORS r.vendorProject = "Microsoft" then
        some ("DeviceTvmSoftwareVulnerabilities | where CveId == \x27"
              ++ r.cveID ++ "\x27 | summarize count() by DeviceName")
      else none := rfl
  have hui : (processVuln r).ui_category = classifyVendor VENDORS r.vendorProject := rfl
  have hcve : (processVuln r).cveID = r.cveID := rfl
  constructor
  · rw [hkql, hui]
    by_cases h : classifyVendor VENDORS r.vendorProject = "Microsoft" <;> simp [h]
  · intro s hs
    rw [hkql] at hs
    by_cases h : classifyVendor VENDORS r.vendorProject = "Microsoft"
    · rw [if_pos h] at hs
      have hs2 := Option.some.inj hs
      rw [hcve, ← hs2]
      exact strContains_append_mid _ _ _
    · rw [if_neg h] at hs
      exact absurd hs (by simp)

/-! ### C2 -/

theorem statusOf_spec (x : Int) :
    (statusOf x = "expired" ↔ x < 0) ∧
    (statusOf x = "warning" ↔ 0 ≤ x ∧ x < 365) ∧
    (statusOf x = "ok" ↔ 365 ≤ x) := by
  unfold statusOf
  split_ifs with h1 h2
  · exact ⟨⟨fun _ => h1, fun _ => rfl⟩,
      ⟨fun hw => absurd hw (by decide), fun hw => absurd h1 (by omega)⟩,
      ⟨fun ho => absurd ho (by decide), fun h365 => absurd h1 (by omega)⟩⟩
  · exact ⟨⟨fun he => absurd he (by decide), fun hlt => absurd hlt h1⟩,
      ⟨fun _ => ⟨by omega, h2⟩, fun _ => rfl⟩,
      ⟨fun ho => absurd ho (by decide), fun h365 => absurd h2 (by omega)⟩⟩
  · exact ⟨⟨fun he => absurd he (by decide), fun hlt => absurd hlt h1⟩,
      ⟨fun hw => absurd hw (by decide), fun hw => absurd hw.2 h2⟩,
      ⟨fun _ => by omega, fun _ => rfl⟩⟩

/-- C2: for every lifecycle record the evaluator retains, with days_left
equal to the end-of-support day minus today: the status is "expired" iff
days_left < 0, "warning" iff 0 ≤ days_left < 365, and "ok" otherwise
(iff 365 ≤ days_left). -/
theorem eol_status_correct (today : Int) (name : String) (v : RawVersion)
    (item : EolItem) (h : eolProcessVersion today name v = some item) :
    (item.status = "expired" ↔ item.sort_date - today < 0) ∧
    (item.status = "warning" ↔
      0 ≤ item.sort_date - today ∧ item.sort_date - today < 365) ∧
    (item.status = "ok" ↔ 365 ≤ item.sort_date - today) := by
  simp only [eolProcessVersion] at h
  split at h
  · exact absurd h (by simp)
  · exact absurd h (by simp)
  · split at h
    · exact absurd h (by simp)
    · split at h
      · exact absurd h (by simp)
      · split at h
        · obtain rfl := (Option.some.inj h).symm
          exact statusOf_spec _
        · exact absurd h (by simp)

/-- Concrete lifecycle record used by the C2 witness. -/
def eolSampleRaw : RawVersion := { cycle := "2019", eol := some (Sum.inr "1970-03-01") }

/-- Concrete evaluated record used by the C2 witness. -/
def eolSampleItem : EolItem :=
  { product := "SQL Server 2019", eol := "1970-03-01", status := "warning", sort_date := 59 }

/-- Witness for C2: evaluating a record 59 days before end of support
yields status "warning", and the status equivalences hold there. -/
theorem eol_status_correct_witness :
    (eolSampleItem.status = "expired" ↔ eolSampleItem.sort_date - 0 < 0) ∧
    (eolSampleItem.status = "warning" ↔
      0 ≤ eolSampleItem.sort_date - 0 ∧ eolSampleItem.sort_date - 0 < 365) ∧
    (eolSampleItem.status = "ok" ↔ 365 ≤ eolSampleItem.sort_date - 0) :=
  eol_status_correct 0 "SQL Server" eolSampleRaw eolSampleItem (by decide)

/-! ### C3 -/

/-- C3 counterexample: with today = 2024-01-01 and end of support
2022-01-01, days_left is exactly -730, yet the evaluator drops the record
(the code keeps a record only when days_left > -730, so the boundary
days_left = -730 is excluded, contrary to the claim that it is retained). -/
theorem eol_retention_boundary_cx :
    parseDate "2022-01-01" = some (civilToDays 2022 1 1) ∧
    civilToDays 2022 1 1 - civilToDays 2024 1 1 = -730 ∧
    eolProcessVersion (civilToDays 2024 1 1) "Windows Server"
      { cycle := "2012", eol := some (Sum.inr "2022-01-01") } = none := by
  decide

/-- C3 (amended): a lifecycle record with a parseable end-of-support date
d is retained exactly when days_left = d - today is strictly greater than
-730 (so it is dropped exactly when days_left ≤ -730: a record with
days_left = -729 is retained, one with days_left = -730 is excluded); a
retained record carries status "expired" exactly when days_left < 0. -/
theorem eol_retention_amended (today : Int) (name cycle s : String) (d : Int)
    (hp : parseDate s = some d) :
    ((eolProcessVersion today name { cycle := cycle, eol := some (Sum.inr s) }).isSome
        = true ↔ d - today > -730) ∧
    (∀ item,
      eolProcessVersion today name { cycle := cycle, eol := some (Sum.inr s) }
          = some item →
      (item.status = "expired" ↔ d - today < 0)) := by
  have hne : ¬ s.isEmpty = true := by
    intro he
    rw [(String.isEmpty_iff s).mp he,
      show parseDate "" = (none : Option Int) from rfl] at hp
    exact Option.noConfusion hp
  have hred : eolProcessVersion today name { cycle := cycle, eol := some (Sum.inr s) }
      = if d - today > -730 then
          some { product := name ++ " " ++ cycle, eol := s,
                 status := statusOf (d - today), sort_date := d }
        else none := by
    simp only [eolProcessVersion, hp]
    rw [if_neg hne]
  rw [hred]
  by_cases hret : d - today > -730
  · rw [if_pos hret]
    refine ⟨by simp [hret], ?_⟩
    intro item hitem
    obtain rfl := (Option.some.inj hitem).symm
    exact (statusOf_spec _).1
  · rw [if_neg hret]
    exact ⟨by simp [hret], fun item hitem => absurd hitem (by simp)⟩

/-- Witness for C3 (amended): end of support 2022-01-02 against today =
2024-01-01 gives days_left = -729 and the record is retained. -/
theorem eol_retention_amended_witness :
    (eolProcessVersion (civilToDays 2024 1 1) "Windows Server"
      { cycle := "2012", eol := some (Sum.inr "2022-01-02") }).isSome = true :=
  (eol_retention_amended (civilToDays 2024 1 1) "Windows Server" "2012"
    "2022-01-02" (civilToDays 2022 1 2) (by decide)).1.mpr (by decide)

/-! ### C7 -/

/-- C7: a raw lifecycle record whose end-of-support field is absent, the
boolean false sentinel, or an unparseable date string evaluates to none
(skipped, never a failure), and removing it from the loop leaves the
evaluation of every sibling record unchanged. -/
theorem eol_bad_record_isolated (today : Int) (name : String)
    (l1 l2 : List RawVersion) (bad : RawVersion)
    (h : bad.eol = none ∨ bad.eol = some (Sum.inl false) ∨
      ∃ s, bad.eol = some (Sum.inr s) ∧ parseDate s = none) :
    eolProcessVersion today name bad = none ∧
    (l1 ++ bad :: l2).filterMap (eolProcessVersion today name)
      = (l1 ++ l2).filterMap (eolProcessVersion today name) := by
  have hb : eolProcessVersion today name bad = none := by
    rcases h with h | h | ⟨s, hs, hps⟩
    · simp [eolProcessVersion, h]
    · simp [eolProcessVersion, h]
    · simp [eolProcessVersion, hs, hps]
  refine ⟨hb, ?_⟩
  rw [List.filterMap_append, List.filterMap_append,
    List.filterMap_cons_none hb]

/-- Record with an unparseable date, used by the C7 witness. -/
def eolBadRaw : RawVersion := { cycle := "10", eol := some (Sum.inr "not-a-date") }

/-- Sibling record before the bad one, used by the C7 witness. -/
def eolGoodRaw1 : RawVersion := { cycle := "11", eol := some (Sum.inr "1971-01-01") }

/-- Sibling record after the bad one, used by the C7 witness. -/
def eolGoodRaw2 : RawVersion := { cycle := "8.1", eol := none }

/-- Witness for C7: a record with the unparseable date "not-a-date" is
skipped and does not disturb the records around it. -/
theorem eol_bad_record_isolated_witness :
    eolProcessVersion 0 "Windows Desktop" eolBadRaw = none ∧
    ([eolGoodRaw1] ++ eolBadRaw :: [eolGoodRaw2]).filterMap
      (eolProcessVersion 0 "Windows Desktop")
      = ([eolGoodRaw1] ++ [eolGoodRaw2]).filterMap
        (eolProcessVersion 0 "Windows Desktop") :=
  eol_bad_record_isolated 0 "Windows Desktop" [eolGoodRaw1] [eolGoodRaw2] eolBadRaw
    (Or.inr (Or.inr ⟨"not-a-date", rfl, by decide⟩))

/-! ### C6 -/

/-- C6: a news source whose fetch or parse raises contributes zero items,
and the failure leaves the contributions of every other source unchanged:
the pipeline output equals the output with the failed source removed. -/
theorem news_failed_source_isolated (l1 l2 : List (String × Except Unit (List RawNewsItem)))
    (n : String) (triggers : List String) :
    fetch_security_news (l1 ++ (n, Except.error ()) :: l2) triggers
      = fetch_security_news (l1 ++ l2) triggers := by
  unfold fetch_security_news
  rw [List.flatMap_append, List.flatMap_append, List.flatMap_cons]
  simp [newsContrib]

/-! ### C5 -/

theorem newsContrib_length_le (triggers : List String)
    (s : String × Except Unit (List RawNewsItem)) :
    (newsContrib triggers s).length ≤ 10 := by
  obtain ⟨nm, e⟩ := s
  cases e with
  | error _ => simp [newsContrib]
  | ok items =>
    simp only [newsContrib, List.length_map]
    exact le_trans (List.length_filter_le _ _) (List.length_take_le 10 items)

theorem newsContrib_source (triggers : List String)
    (s : String × Except Unit (List RawNewsItem)) (o : NewsItem)
    (ho : o ∈ newsContrib triggers s) : o.source = s.1 := by
  obtain ⟨nm, e⟩ := s
  cases e with
  | error _ => simp [newsContrib] at ho
  | ok items =>
    simp only [newsContrib, List.mem_map] at ho
    obtain ⟨i, _, rfl⟩ := ho
    rfl

theorem newsFlat_countP_le (triggers : List String)
    (sources : List (String × Except Unit (List RawNewsItem))) (nm : String)
    (hnd : (sources.map Prod.fst).Nodup) :
    (sources.flatMap (newsContrib triggers)).countP
      (fun o => o.source == nm) ≤ 10 := by
  induction sources with
  | nil => simp
  | cons s rest ih =>
    rw [List.flatMap_cons, List.countP_append]
    rw [List.map_cons, List.nodup_cons] at hnd
    by_cases hs : s.1 = nm
    · have hrest : (rest.flatMap (newsContrib triggers)).countP
          (fun o => o.source == nm) = 0 := by
        apply List.countP_eq_zero.mpr
        intro o ho
        obtain ⟨t, ht, hot⟩ := List.mem_flatMap.mp ho
        have hsrc := newsContrib_source triggers t o hot
        have ht1 : t.1 ≠ nm := by
          intro he
          apply hnd.1
          rw [hs, ← he]
          exact List.mem_map_of_mem Prod.fst ht
        simp [hsrc, ht1]
      have h1 : (newsContrib triggers s).countP (fun o : NewsItem => o.source == nm)
          ≤ (newsContrib triggers s).length := List.countP_le_length _
      have h2 := newsContrib_length_le triggers s
      omega
    · have hhead : (newsContrib triggers s).countP (fun o => o.source == nm) = 0 := by
        apply List.countP_eq_zero.mpr
        intro o ho
        simp [newsContrib_source triggers s o ho, hs]
      rw [hhead]
      simpa using ih hnd.2

/-- C5: for every input the news filter returns at most 15 items, and at
most 10 of the returned items originate from any single source (sources
being identified by their declared, pairwise distinct names). -/
theorem news_caps (sources : List (String × Except Unit (List RawNewsItem)))
    (triggers : List String) (hnd : (sources.map Prod.fst).Nodup) :
    (fetch_security_news sources triggers).length ≤ 15 ∧
    ∀ nm, (fetch_security_news sources triggers).countP
      (fun o => o.source == nm) ≤ 10 := by
  refine ⟨List.length_take_le 15 _, fun nm => ?_⟩
  exact le_trans
    ((List.take_sublist 15 _).countP_le (fun o : NewsItem => o.source == nm))
    (newsFlat_countP_le triggers sources nm hnd)

/-- News item used by the C4 and C5 witnesses: the example of the spec,
title "Critical RCE in Example Software" with empty description. -/
def newsSampleItem : RawNewsItem :=
  { title := "Critical RCE in Example Software", desc := none,
    link := "https://example.test/a", pubDate := none }

/-- Witness for C5 on a concrete two-source input with distinct names,
one of the sources failing. -/
theorem news_caps_witness :
    (fetch_security_news
      [("BleepingComputer", Except.ok [newsSampleItem]),
       ("Dark Reading", Except.error ())] NEWS_TRIGGERS).length ≤ 15 ∧
    (fetch_security_news
      [("BleepingComputer", Except.ok [newsSampleItem]),
       ("Dark Reading", Except.error ())] NEWS_TRIGGERS).countP
      (fun o => o.source == "BleepingComputer") ≤ 10 :=
  ⟨(news_caps _ NEWS_TRIGGERS (by decide)).1,
   (news_caps _ NEWS_TRIGGERS (by decide)).2 "BleepingComputer"⟩

/-! ### C4 -/

/-- An 11th distinct matching item, used by the C4 counterexample. -/
def newsItem10 : RawNewsItem :=
  { title := "critical 10", desc := none, link := "https://example.test/10",
    pubDate := none }

/-- Eleven distinct news items whose titles all contain the trigger
"critical", used by the C4 counterexample. -/
def newsElevenItems : List RawNewsItem :=
  [{ title := "critical 0", desc := none, link := "https://example.test/0", pubDate := none },
   { title := "critical 1", desc := none, link := "https://example.test/1", pubDate := none },
   { title := "critical 2", desc := none, link := "https://example.test/2", pubDate := none },
   { title := "critical 3", desc := none, link := "https://example.test/3", pubDate := none },
   { title := "critical 4", desc := none, link := "https://example.test/4", pubDate := none },
   { title := "critical 5", desc := none, link := "https://example.test/5", pubDate := none },
   { title := "critical 6", desc := none, link := "https://example.test/6", pubDate := none },
   { title := "critical 7", desc := none, link := "https://example.test/7", pubDate := none },
   { title := "critical 8", desc := none, link := "https://example.test/8", pubDate := none },
   { title := "critical 9", desc := none, link := "https://example.test/9", pubDate := none },
   newsItem10]

/-- C4 counterexample: in a feed of eleven distinct items whose text all
contains the trigger, the eleventh item matches the trigger set yet is not
retained, because the code only examines the first 10 items of a source;
so "retained iff the text contains a trigger" fails as stated. -/
theorem news_filter_iff_cx :
    matchesNews ["critical"] newsItem10 = true ∧
    newsItem10 ∈ newsElevenItems ∧
    mkNewsItem "S" newsItem10 ∉
      fetch_security_news [("S", Except.ok newsElevenItems)] ["critical"] := by
  decide

/-- C4 (amended): for a single news source, among the first 10 raw items
of the feed (the only ones the code examines) an item is retained iff the
lowercased concatenation of its title and description contains at least
one trigger substring, and everything retained arises this way. -/
theorem news_filter_amended (name : String) (items : List RawNewsItem)
    (triggers : List String) :
    (∀ i ∈ items.take 10, matchesNews triggers i = true →
      mkNewsItem name i ∈ fetch_security_news [(name, Except.ok items)] triggers) ∧
    (∀ o ∈ fetch_security_news [(name, Except.ok items)] triggers,
      ∃ i ∈ items.take 10, matchesNews triggers i = true ∧ o = mkNewsItem name i) := by
  have hlen : (((items.take 10).filter (matchesNews triggers)).map
      (mkNewsItem name)).length ≤ 15 := by
    rw [List.length_map]
    exact le_trans (le_trans (List.length_filter_le _ _)
      (List.length_take_le 10 items)) (by omega)
  have hpipe : fetch_security_news [(name, Except.ok items)] triggers
      = ((items.take 10).filter (matchesNews triggers)).map (mkNewsItem name) := by
    have hflat : [(name, Except.ok items)].flatMap (newsContrib triggers)
        = ((items.take 10).filter (matchesNews triggers)).map (mkNewsItem name) := by
      simp [newsContrib]
    unfold fetch_security_news
    rw [hflat]
    exact List.take_of_length_le hlen
  constructor
  · intro i hi hm
    rw [hpipe]
    exact List.mem_map.mpr ⟨i, List.mem_filter.mpr ⟨hi, hm⟩, rfl⟩
  · intro o ho
    rw [hpipe] at ho
    obtain ⟨i, hif, rfl⟩ := List.mem_map.mp ho
    obtain ⟨hi, hm⟩ := List.mem_filter.mp hif
    exact ⟨i, hi, hm, rfl⟩

/-- Witness for C4 (amended): the spec example, a title containing
"Critical RCE" with empty description, is retained under the triggers
containing "rce" and "critical". -/
theorem news_filter_amended_witness :
    mkNewsItem "BleepingComputer" newsSampleItem ∈
      fetch_security_news [("BleepingComputer", Except.ok [newsSampleItem])]
        ["rce", "critical"] :=
  (news_filter_amended "BleepingComputer" [newsSampleItem] ["rce", "critical"]).1
    newsSampleItem (by decide) (by decide)

/-! ### C8 -/

/-- C8: fetch_eol_data returns the merged records of all product lines
sorted ascending by end-of-support day, and only the first 5 versions of
each product line feed are considered: truncating every feed to its first
5 entries leaves the output unchanged. -/
theorem eol_sorted_and_first_five (lines : List (String × Option (List RawVersion)))
    (today : Int) :
    (fetch_eol_data lines today).Pairwise (fun a b => a.sort_date ≤ b.sort_date) ∧
    fetch_eol_data (lines.map (fun l => (l.1, l.2.map (fun vs => vs.take 5)))) today
      = fetch_eol_data lines today := by
  constructor
  · haveI : IsTotal EolItem (fun a b => a.sort_date ≤ b.sort_date) :=
      ⟨fun a b => Int.le_total a.sort_date b.sort_date⟩
    haveI : IsTrans EolItem (fun a b => a.sort_date ≤ b.sort_date) :=
      ⟨fun _ _ _ h1 h2 => le_trans h1 h2⟩
    exact List.sorted_insertionSort _ _
  · have hline : ∀ l : String × Option (List RawVersion),
        eolProcessLine today (l.1, l.2.map (fun vs => vs.take 5))
          = eolProcessLine today l := by
      intro l
      obtain ⟨nm, ov⟩ := l
      cases ov with
      | none => rfl
      | some vs => simp [eolProcessLine, List.take_take]
    unfold fetch_eol_data
    congr 1
    induction lines with
    | nil => rfl
    | cons a t ih =>
      rw [List.map_cons, List.flatMap_cons, List.flatMap_cons, hline a, ih]

/-- Concrete Microsoft vulnerability record used by the C9 witness. -/
def cisaSample : RawVuln :=
  { cveID := "CVE-2024-0001", vendorProject := "Microsoft Corp",
    product := "Windows", vulnerabilityName := "Example Vulnerability",
    shortDescription := "Example description", requiredAction := "Apply updates",
    dateAdded := "2024-01-15" }

/-- Witness for C9: on a one-record feed classified as Microsoft, the
returned record carries a KQL template and the template contains the CVE
identifier. -/
theorem kql_iff_microsoft_witness :
    ((processVuln cisaSample).kql.isSome = true ↔
      (processVuln cisaSample).ui_category = "Microsoft") ∧
    strContains
      "DeviceTvmSoftwareVulnerabilities | where CveId == \x27CVE-2024-0001\x27 | summarize count() by DeviceName"
      "CVE-2024-0001" = true :=
  ⟨(kql_iff_microsoft [cisaSample] (processVuln cisaSample) (by decide)).1,
   (kql_iff_microsoft [cisaSample] (processVuln cisaSample) (by decide)).2 _ (by decide)⟩
